import Mathlib

/-! Sensitive controller: a shallow embedding of `SensitiveReconciler.Reconcile`.

Source: `controllers/sensitive_controller.go`.

`Reconcile` talks to the cluster only through the embedded `client.Client`
(`Get`, `Create`, `Update`) and through `controllerutil.SetControllerReference`.
The cluster is modelled as an explicit store that is passed in and returned,
together with the trace of calls that were issued.  Go strings are Lean
`String`s (API objects travel as UTF-8 text); `[]byte(s)` is the UTF-8 encoding.
-/

namespace SensitiveController

/-! ## Data model -/

/-- Go `[]byte`. -/
abbrev Bytes := List UInt8

/-- Go conversion `[]byte(s)`: the UTF-8 bytes of the string. -/
def bytesOf (s : String) : Bytes :=
  s.data.flatMap String.utf8EncodeChar

/-- Go comparison `string(b) == s`: the conversion copies the bytes verbatim, so
the two sides are equal exactly when `b` is the byte content of `s`. -/
def stringEq (b : Bytes) (s : String) : Bool :=
  decide (b = bytesOf s)

/-- Go `map[string][]byte` (`Secret.Data`), as an association list. -/
abbrev DataMap := List (String × Bytes)

/-- Go `v, ok := m[k]`: `none` stands for `ok == false`. -/
def DataMap.get (m : DataMap) (k : String) : Option Bytes :=
  m.lookup k

/-- Go `m[k] = v`: overwrite the entry for `k` in place, or add it when absent. -/
def DataMap.set (m : DataMap) (k : String) (v : Bytes) : DataMap :=
  if (m.lookup k).isSome then
    m.map (fun e => if e.1 = k then (e.1, v) else e)
  else
    m ++ [(k, v)]

/-- The keys of a data map, in stored order. -/
def DataMap.keys (m : DataMap) : List String :=
  m.map Prod.fst

/-- The type `types.NamespacedName` (`ns` is its `Namespace` field). -/
structure NamespacedName where
  name : String
  ns : String
deriving DecidableEq, Repr

/-- Go `NamespacedName.String()`, used by `%s`. -/
def NamespacedName.toString (n : NamespacedName) : String :=
  n.ns ++ "/" ++ n.name

/-- The type `metav1.OwnerReference`; the two `*bool` fields are options. -/
structure OwnerReference where
  apiVersion : String
  kind : String
  name : String
  uid : String
  controller : Option Bool
  blockOwnerDeletion : Option Bool
deriving DecidableEq, Repr

/-- The fields of `testv1alpha1.Sensitive` that `Reconcile` reads:
`ObjectMeta.Name`, `ObjectMeta.Namespace`, `ObjectMeta.UID`, `Spec.Key`,
`Spec.Value`. -/
structure Sensitive where
  name : String
  ns : String
  uid : String
  key : String
  value : String
deriving DecidableEq, Repr

/-- The fields of `v1.Secret` that `Reconcile` reads or writes: `TypeMeta.Kind`,
`ObjectMeta.Name`, `ObjectMeta.Namespace`, `ObjectMeta.OwnerReferences`, `Data`. -/
structure Secret where
  kind : String
  name : String
  ns : String
  ownerReferences : List OwnerReference
  data : DataMap
deriving DecidableEq, Repr

/-- The type `ctrl.Result`. -/
structure Result where
  requeue : Bool
  requeueAfter : Nat
deriving DecidableEq, Repr

/-- Go `ctrl.Result{}`. -/
def Result.empty : Result :=
  { requeue := false, requeueAfter := 0 }

/-- The errors `Reconcile` can see: API status errors told apart by their reason
(`errors.IsNotFound`, `errors.NewConflict`), and every other error. -/
inductive Err where
  | notFound (name : String)
  | alreadyExists (name : String)
  | conflict (group : String) (resource : String) (name : String) (cause : String)
  | other (msg : String)
deriving DecidableEq, Repr

/-- Go `errors.IsNotFound`. -/
def Err.isNotFound : Err → Bool
  | .notFound _ => true
  | _ => false

/-- Go `errors.IsConflict`. -/
def Err.isConflict : Err → Bool
  | .conflict _ _ _ _ => true
  | _ => false

/-- Go `errors.NewConflict(apiextensions.Resource(resource), name, err)`. -/
def newConflict (resource name cause : String) : Err :=
  .conflict "apiextensions.k8s.io" resource name cause

/-! ## The collaborator client -/

/-- Modelled from the spec: the cluster store behind the collaborator client
(`client.Client`, not under the source tree): the Sensitive and Secret objects,
each addressed by name and namespace. -/
structure Store where
  sensitives : List Sensitive
  secrets : List Secret
deriving DecidableEq, Repr

/-- Failures of the client calls that do not come from the store content
(network and server errors): `some msg` makes the call fail with that error. -/
structure Faults where
  getSensitive : Option String
  getSecret : Option String
  create : Option String
  update : Option String
deriving DecidableEq, Repr

/-- All client calls go through to the store. -/
def Faults.none : Faults :=
  { getSensitive := Option.none, getSecret := Option.none,
    create := Option.none, update := Option.none }

/-- What `Reconcile` does to the outside, in order. -/
inductive Call where
  | getSensitive (key : NamespacedName)
  | getSecret (key : NamespacedName)
  | create (s : Secret)
  | update (s : Secret)
  | logInfo (msg : String)
  | logError (msg : String)
deriving DecidableEq, Repr

/-- Does the secret live at this name and namespace? -/
def Secret.isAt (s : Secret) (key : NamespacedName) : Bool :=
  decide (s.name = key.name ∧ s.ns = key.ns)

/-- Does the Sensitive live at this name and namespace? -/
def Sensitive.isAt (s : Sensitive) (key : NamespacedName) : Bool :=
  decide (s.name = key.name ∧ s.ns = key.ns)

/-- Modelled from the spec: client `Get` for a Sensitive,
`get(kind, namespacedName) -> object | NotFoundError | other error`. -/
def clientGetSensitive (f : Faults) (st : Store) (key : NamespacedName) :
    Except Err Sensitive :=
  match f.getSensitive with
  | some msg => .error (.other msg)
  | none =>
    match st.sensitives.find? (fun s => s.isAt key) with
    | some s => .ok s
    | none => .error (.notFound key.name)

/-- Modelled from the spec: client `Get` for a Secret,
`get(kind, namespacedName) -> object | NotFoundError | other error`. -/
def clientGetSecret (f : Faults) (st : Store) (key : NamespacedName) :
    Except Err Secret :=
  match f.getSecret with
  | some msg => .error (.other msg)
  | none =>
    match st.secrets.find? (fun s => s.isAt key) with
    | some s => .ok s
    | none => .error (.notFound key.name)

/-- Modelled from the spec: client `Create` for a Secret, `create(object) -> ok | error`;
the store refuses a name that is taken. -/
def clientCreate (f : Faults) (st : Store) (s : Secret) : Except Err Store :=
  match f.create with
  | some msg => .error (.other msg)
  | none =>
    if st.secrets.any (fun t => t.isAt ⟨s.name, s.ns⟩) then
      .error (.alreadyExists s.name)
    else
      .ok { st with secrets := st.secrets ++ [s] }

/-- Modelled from the spec: client `Update` for a Secret, `update(object) -> ok | error`;
the stored object of that name is replaced. -/
def clientUpdate (f : Faults) (st : Store) (s : Secret) : Except Err Store :=
  match f.update with
  | some msg => .error (.other msg)
  | none =>
    if st.secrets.any (fun t => t.isAt ⟨s.name, s.ns⟩) then
      .ok { st with secrets :=
        st.secrets.map (fun t => if t.isAt ⟨s.name, s.ns⟩ then s else t) }
    else
      .error (.notFound s.name)

/-! ## Owner stamping -/

/-- The type `schema.GroupVersionKind`. -/
structure GroupVersionKind where
  group : String
  version : String
  kind : String
deriving DecidableEq, Repr

/-- Go `GroupVersion.String()`. -/
def GroupVersionKind.apiVersion (g : GroupVersionKind) : String :=
  if g.group = "" then g.version else g.group ++ "/" ++ g.version

/-- Modelled from the spec: the type scheme handed to the stamping helper
(`r.Scheme`, filled by the type registration of `api/v1alpha1`, not under the
source tree): the group, version and kind registered for the Sensitive type, if any. -/
structure Scheme where
  sensitive : Option GroupVersionKind
deriving DecidableEq, Repr

/-- Go `schema.ParseGroupVersion`, group part only; `none` is the parse error. -/
def parseGroup (gv : String) : Option String :=
  if gv = "" ∨ gv = "/" then some ""
  else
    match gv.splitOn "/" with
    | [_] => some ""
    | [g, _] => some g
    | _ => none

/-- Go `referSameObject` of `controllerutil`. -/
def referSameObject (a b : OwnerReference) : Bool :=
  match parseGroup a.apiVersion, parseGroup b.apiVersion with
  | some ga, some gb => decide (ga = gb ∧ a.kind = b.kind ∧ a.name = b.name)
  | _, _ => false

/-- Go `metav1.GetControllerOf`: the first reference with the controller flag set. -/
def getControllerOf (refs : List OwnerReference) : Option OwnerReference :=
  refs.find? (fun r => r.controller = some true)

/-- Go `upsertOwnerRef` of `controllerutil`: replace the reference to the same
object, or append. -/
def upsertOwnerRef (ref : OwnerReference) (refs : List OwnerReference) :
    List OwnerReference :=
  match refs.findIdx? (fun r => referSameObject r ref) with
  | some i => refs.set i ref
  | none => refs ++ [ref]

/-- Modelled from the spec: the collaborator helper that stamps a controller-owner
reference from a child object to a parent object, given a type scheme
(`controllerutil.SetControllerReference`, not under the source tree). It fails on a
cross-namespace owner, on a type the scheme does not know, and on a child that
another controller already owns. -/
def SetControllerReference (owner : Sensitive) (controlled : Secret) (scheme : Scheme) :
    Except Err Secret :=
  if owner.ns ≠ "" ∧ controlled.ns = "" then
    .error (.other "cluster-scoped resource must not have a namespace-scoped owner")
  else if owner.ns ≠ "" ∧ owner.ns ≠ controlled.ns then
    .error (.other "cross-namespace owner references are disallowed")
  else
    match scheme.sensitive with
    | none => .error (.other "no kind is registered for the type Sensitive")
    | some gvk =>
      let ref : OwnerReference :=
        { apiVersion := gvk.apiVersion, kind := gvk.kind, name := owner.name,
          uid := owner.uid, controller := some true, blockOwnerDeletion := some true }
      match getControllerOf controlled.ownerReferences with
      | some existing =>
        if referSameObject existing ref then
          .ok { controlled with
            ownerReferences := upsertOwnerRef ref controlled.ownerReferences }
        else
          .error (.other "Object is already owned by another controller")
      | none =>
        .ok { controlled with
          ownerReferences := upsertOwnerRef ref controlled.ownerReferences }

/-! ## Reconcile -/

/-- What one invocation of `Reconcile` yields: the returned pair
`(ctrl.Result, error)`, the store afterwards, and the calls issued, in order. -/
structure Outcome where
  result : Result
  err : Option Err
  store : Store
  calls : List Call
deriving DecidableEq, Repr

/-- The ownership scan of `Reconcile`: is there an owner reference whose UID is the
Sensitive's UID? -/
def owned (refs : List OwnerReference) (sensitive : Sensitive) : Bool :=
  refs.any (fun owner => decide (owner.uid = sensitive.uid))

/-- The method `SensitiveReconciler.Reconcile`. `f` and `st` are the client (its failures
and its store), `scheme` is `r.Scheme`, `req` is `req.NamespacedName`. -/
def Reconcile (f : Faults) (scheme : Scheme) (st : Store) (req : NamespacedName) :
    Outcome :=
  match clientGetSensitive f st req with
  | .error err =>
    if err.isNotFound then
      { result := Result.empty, err := none, store := st,
        calls := [.getSensitive req,
                  .logInfo ("'" ++ req.toString ++ "' Sensitive deleted")] }
    else
      { result := Result.empty, err := some err, store := st,
        calls := [.getSensitive req] }
  | .ok sensitive =>
    let key : NamespacedName := { name := sensitive.name, ns := sensitive.ns }
    match clientGetSecret f st key with
    | .error err =>
      if !err.isNotFound then
        { result := Result.empty, err := some err, store := st,
          calls := [.getSensitive req, .getSecret key] }
      else
        let secret : Secret :=
          { kind := "", name := sensitive.name, ns := sensitive.ns,
            ownerReferences := [],
            data := [(sensitive.key, bytesOf sensitive.value)] }
        match SetControllerReference sensitive secret scheme with
        | .error err =>
          { result := Result.empty, err := some err, store := st,
            calls := [.getSensitive req, .getSecret key] }
        | .ok secret =>
          match clientCreate f st secret with
          | .error err =>
            { result := Result.empty, err := some err, store := st,
              calls := [.getSensitive req, .getSecret key, .create secret,
                        .logError "unable to create secret"] }
          | .ok st1 =>
            { result := Result.empty, err := none, store := st1,
              calls := [.getSensitive req, .getSecret key, .create secret] }
    | .ok secret =>
      if !owned secret.ownerReferences sensitive then
        { result := Result.empty,
          err := some (newConflict secret.kind secret.name
            ("secret with name '" ++ secret.name
              ++ "' already exists, but not owned by Sensitive: '"
              ++ sensitive.name ++ "'")),
          store := st, calls := [.getSensitive req, .getSecret key] }
      else
        match secret.data.get sensitive.key with
        | none =>
          { result := Result.empty,
            err := some (newConflict secret.kind secret.name
              ("unable to find secret value by key '" ++ sensitive.key ++ "'")),
            store := st, calls := [.getSensitive req, .getSecret key] }
        | some oldSecretValue =>
          if stringEq oldSecretValue sensitive.value then
            { result := Result.empty, err := none, store := st,
              calls := [.getSensitive req, .getSecret key] }
          else
            let secret : Secret :=
              { secret with
                data := secret.data.set sensitive.key (bytesOf sensitive.value) }
            match clientUpdate f st secret with
            | .error err =>
              { result := Result.empty, err := some err, store := st,
                calls := [.getSensitive req, .getSecret key, .update secret,
                          .logError "unable to update secret"] }
            | .ok st1 =>
              { result := Result.empty, err := none, store := st1,
                calls := [.getSensitive req, .getSecret key, .update secret] }

/-- The Secrets passed to `Create`, in order. -/
def creates : List Call → List Secret
  | [] => []
  | .create s :: cs => s :: creates cs
  | _ :: cs => creates cs

/-- The Secrets passed to `Update`, in order. -/
def updates : List Call → List Secret
  | [] => []
  | .update s :: cs => s :: updates cs
  | _ :: cs => updates cs

/-- The keys passed to `Get` for a Secret, in order. -/
def secretGets : List Call → List NamespacedName
  | [] => []
  | .getSecret k :: cs => k :: secretGets cs
  | _ :: cs => secretGets cs

/-- The error `Reconcile` returns for a Secret that the Sensitive does not own. -/
def notOwnedConflict (secret : Secret) (sensitive : Sensitive) : Err :=
  newConflict secret.kind secret.name
    ("secret with name '" ++ secret.name
      ++ "' already exists, but not owned by Sensitive: '" ++ sensitive.name ++ "'")

/-- The error `Reconcile` returns for an owned Secret without the Sensitive's key. -/
def missingKeyConflict (secret : Secret) (sensitive : Sensitive) : Err :=
  newConflict secret.kind secret.name
    ("unable to find secret value by key '" ++ sensitive.key ++ "'")

/-- The controller-owner reference to `S` under the registration `gvk`. -/
def controllerRefOf (gvk : GroupVersionKind) (S : Sensitive) : OwnerReference :=
  { apiVersion := gvk.apiVersion, kind := gvk.kind, name := S.name,
    uid := S.uid, controller := some true, blockOwnerDeletion := some true }

/-- The Secret of the create path: named after `S`, one data entry, one owner reference. -/
def createdSecret (gvk : GroupVersionKind) (S : Sensitive) : Secret :=
  { kind := "", name := S.name, ns := S.ns,
    ownerReferences := [controllerRefOf gvk S],
    data := [(S.key, bytesOf S.value)] }

/-! ## A concrete cluster (the scenario of the controller test) -/

/-- The registration of the test suite: `test.origoss.com/v1alpha1`, kind `Sensitive`. -/
def exScheme : Scheme :=
  { sensitive := some { group := "test.origoss.com", version := "v1alpha1",
                        kind := "Sensitive" } }

/-- The Sensitive of the controller test. -/
def exSensitive : Sensitive :=
  { name := "sensitive-test", ns := "default", uid := "uid-1",
    key := "password", value := "test-password" }

/-- The request for `exSensitive`. -/
def exReq : NamespacedName :=
  { name := "sensitive-test", ns := "default" }

/-- An owner reference to `exSensitive` as the stamping helper writes it. -/
def exOwnerRef : OwnerReference :=
  { apiVersion := "test.origoss.com/v1alpha1", kind := "Sensitive",
    name := "sensitive-test", uid := "uid-1",
    controller := some true, blockOwnerDeletion := some true }

/-- A Secret at the name of `exSensitive` with the given owner references and data. -/
def exSecret (refs : List OwnerReference) (data : DataMap) : Secret :=
  { kind := "", name := "sensitive-test", ns := "default",
    ownerReferences := refs, data := data }

/-- A store holding `exSensitive` and the given Secrets. -/
def exStore (secrets : List Secret) : Store :=
  { sensitives := [exSensitive], secrets := secrets }

/-- A reference to `exSensitive` (same UID) with the controller flag unset. -/
def exUnflaggedRef : OwnerReference :=
  { apiVersion := "test.origoss.com/v1alpha1", kind := "Sensitive",
    name := "sensitive-test", uid := "uid-1",
    controller := none, blockOwnerDeletion := none }

/-- The Sensitive `exSensitive` after its key was changed from `password` to `token`. -/
def exRekeyed : Sensitive :=
  { name := "sensitive-test", ns := "default", uid := "uid-1",
    key := "token", value := "test-password" }

/-- How many owner references carry the given UID. -/
def uidCount (refs : List OwnerReference) (uid : String) : Nat :=
  refs.countP (fun r => decide (r.uid = uid))

/-! ## Lemmas on the data map -/

theorem lookup_map_set (k : String) (v : Bytes) (m : DataMap) (h : (m.lookup k).isSome) :
    (m.map (fun e => if e.1 = k then (e.1, v) else e)).lookup k = some v := by
  induction m with
  | nil => simp at h
  | cons e m ih =>
    obtain ⟨a, b⟩ := e
    rw [List.map_cons, List.lookup_cons]
    by_cases hak : a = k
    · subst hak
      simp
    · have hka : (k == a) = false := by
        simpa using fun h' => hak h'.symm
      rw [List.lookup_cons, hka] at h
      simp only [hak, if_false, hka]
      exact ih h

theorem lookup_map_set_ne (k k' : String) (v : Bytes) (m : DataMap) (hk : k' ≠ k) :
    (m.map (fun e => if e.1 = k then (e.1, v) else e)).lookup k' = m.lookup k' := by
  induction m with
  | nil => rfl
  | cons e m ih =>
    obtain ⟨a, b⟩ := e
    rw [List.map_cons, List.lookup_cons, List.lookup_cons]
    by_cases hak : a = k
    · subst hak
      have hka : (k' == a) = false := by simpa using hk
      simp only [if_true, hka]
      exact ih
    · simp only [hak, if_false]
      rw [ih]

theorem lookup_append_single (k k' : String) (v : Bytes) (m : DataMap) :
    (m ++ [(k, v)]).lookup k' =
      match m.lookup k' with
      | some w => some w
      | none => if k' = k then some v else none := by
  induction m with
  | nil =>
    by_cases h : k' = k
    · subst h; simp [List.lookup_cons]
    · have hb : (k' == k) = false := by simpa using h
      simp [List.lookup_cons, hb, h]
  | cons e m ih =>
    obtain ⟨a, b⟩ := e
    rw [List.cons_append, List.lookup_cons, List.lookup_cons]
    by_cases h : k' = a
    · subst h; simp
    · have hb : (k' == a) = false := by simpa using h
      simp only [hb]
      exact ih

/-- After `m[k] = v`, reading `k` gives `v`. -/
theorem DataMap.get_set_self (m : DataMap) (k : String) (v : Bytes) :
    (m.set k v).get k = some v := by
  unfold DataMap.set DataMap.get
  by_cases h : (m.lookup k).isSome
  · simp only [h, if_true]
    exact lookup_map_set k v m h
  · rw [if_neg h, lookup_append_single]
    cases hm : m.lookup k with
    | none => simp
    | some w => simp [hm] at h

/-- After `m[k] = v`, every other key reads as before. -/
theorem DataMap.get_set_ne (m : DataMap) (k k' : String) (v : Bytes) (hk : k' ≠ k) :
    (m.set k v).get k' = m.get k' := by
  unfold DataMap.set DataMap.get
  by_cases h : (m.lookup k).isSome
  · simp only [h, if_true]
    exact lookup_map_set_ne k k' v m hk
  · rw [if_neg h, lookup_append_single]
    cases hm : m.lookup k' with
    | none => simp [hk]
    | some w => simp

/-- Overwriting a key that is present keeps the key set as it is. -/
theorem DataMap.keys_set_of_get (m : DataMap) (k : String) (v w : Bytes)
    (h : m.get k = some w) : (m.set k v).keys = m.keys := by
  unfold DataMap.get at h
  unfold DataMap.set DataMap.keys
  simp only [h, Option.isSome_some, if_true, List.map_map]
  apply List.map_congr_left
  intro e _
  by_cases he : e.1 = k <;> simp [he]

/-! ## Lemmas on the client -/

theorem clientGetSensitive_ok {f : Faults} {st : Store} {key : NamespacedName}
    {S : Sensitive} (h : clientGetSensitive f st key = .ok S) :
    f.getSensitive = none ∧ st.sensitives.find? (fun s => s.isAt key) = some S := by
  unfold clientGetSensitive at h
  cases hf : f.getSensitive with
  | some msg => simp [hf] at h
  | none =>
    cases hs : st.sensitives.find? (fun s => s.isAt key) with
    | none => simp [hf, hs] at h
    | some s =>
      simp only [hf, hs, Except.ok.injEq] at h
      exact ⟨rfl, by rw [h]⟩

theorem clientGetSecret_ok {f : Faults} {st : Store} {key : NamespacedName}
    {sec : Secret} (h : clientGetSecret f st key = .ok sec) :
    f.getSecret = none ∧ st.secrets.find? (fun s => s.isAt key) = some sec := by
  unfold clientGetSecret at h
  cases hf : f.getSecret with
  | some msg => simp [hf] at h
  | none =>
    cases hs : st.secrets.find? (fun s => s.isAt key) with
    | none => simp [hf, hs] at h
    | some s =>
      simp only [hf, hs, Except.ok.injEq] at h
      exact ⟨rfl, by rw [h]⟩

theorem clientGetSecret_notFound {f : Faults} {st : Store} {key : NamespacedName}
    {e : Err} (h : clientGetSecret f st key = .error e) (he : e.isNotFound = true) :
    f.getSecret = none ∧ st.secrets.find? (fun s => s.isAt key) = none := by
  unfold clientGetSecret at h
  cases hf : f.getSecret with
  | some msg =>
    simp only [hf, Except.error.injEq] at h
    subst h
    simp [Err.isNotFound] at he
  | none =>
    cases hs : st.secrets.find? (fun s => s.isAt key) with
    | none => exact ⟨rfl, rfl⟩
    | some s => simp [hf, hs] at h

theorem any_of_find? {α : Type} (p : α → Bool) (l : List α) (a : α)
    (h : l.find? p = some a) : l.any p = true := by
  rw [List.any_eq_true]
  exact ⟨a, List.mem_of_find?_eq_some h, List.find?_some h⟩

theorem any_of_find?_none {α : Type} (p : α → Bool) (l : List α)
    (h : l.find? p = none) : l.any p = false := by
  rw [List.find?_eq_none] at h
  rw [List.any_eq_false]
  intro x hx
  exact h x hx

theorem find?_map_replace {α : Type} (p : α → Bool) (l : List α) (a b : α)
    (h : l.find? p = some a) (hb : p b = true) :
    (l.map (fun t => if p t then b else t)).find? p = some b := by
  induction l with
  | nil => simp at h
  | cons x l ih =>
    rw [List.map_cons]
    by_cases hx : p x = true
    · simp [hx, hb]
    · have hx' : p x = false := by simpa using hx
      rw [List.find?_cons, hx'] at h
      simp only [hx', Bool.false_eq_true, if_false]
      rw [List.find?_cons, hx']
      exact ih h

theorem find?_append_single {α : Type} (p : α → Bool) (l : List α) (b : α)
    (h : l.find? p = none) (hb : p b = true) :
    (l ++ [b]).find? p = some b := by
  rw [List.find?_append, h]
  simp [hb]

/-! ## Claims -/

/-- C6. Deleted Sensitive: when fetching the Sensitive reports NotFound, `Reconcile`
returns the empty result with no error; it has issued the one `Get` for the Sensitive
and a log line and nothing else (no `Get` for the Secret, no `Create`, no `Update`),
and the store is unchanged, whatever Secrets it holds. -/
theorem reconcile_deleted_sensitive (f : Faults) (scheme : Scheme) (st : Store)
    (req : NamespacedName) (e : Err)
    (hget : clientGetSensitive f st req = .error e) (hnf : e.isNotFound = true) :
    (Reconcile f scheme st req).result = Result.empty ∧
    (Reconcile f scheme st req).err = none ∧
    (Reconcile f scheme st req).store = st ∧
    (Reconcile f scheme st req).calls =
      [.getSensitive req, .logInfo ("'" ++ req.toString ++ "' Sensitive deleted")] ∧
    secretGets (Reconcile f scheme st req).calls = [] ∧
    creates (Reconcile f scheme st req).calls = [] ∧
    updates (Reconcile f scheme st req).calls = [] := by
  simp [Reconcile, hget, hnf, secretGets, creates, updates]

/-- C6 at a store without the Sensitive but with a Secret of that name. -/
theorem reconcile_deleted_sensitive_witness :
    clientGetSensitive Faults.none ⟨[], [exSecret [exOwnerRef] []]⟩ exReq
      = .error (.notFound "sensitive-test") ∧
    (Reconcile Faults.none exScheme ⟨[], [exSecret [exOwnerRef] []]⟩ exReq).err = none ∧
    (Reconcile Faults.none exScheme ⟨[], [exSecret [exOwnerRef] []]⟩ exReq).store
      = ⟨[], [exSecret [exOwnerRef] []]⟩ ∧
    secretGets (Reconcile Faults.none exScheme ⟨[], [exSecret [exOwnerRef] []]⟩ exReq).calls
      = [] :=
  have h := reconcile_deleted_sensitive Faults.none exScheme
    ⟨[], [exSecret [exOwnerRef] []]⟩ exReq (.notFound "sensitive-test") rfl rfl
  ⟨rfl, h.2.1, h.2.2.1, h.2.2.2.2.1⟩

theorem owned_eq_false {refs : List OwnerReference} {S : Sensitive}
    (h : ∀ r ∈ refs, r.uid ≠ S.uid) : owned refs S = false := by
  unfold owned
  rw [List.any_eq_false]
  intro r hr
  simpa using h r hr

theorem owned_eq_true {refs : List OwnerReference} {S : Sensitive}
    (h : ∃ r ∈ refs, r.uid = S.uid) : owned refs S = true := by
  unfold owned
  rw [List.any_eq_true]
  obtain ⟨r, hr, hu⟩ := h
  exact ⟨r, hr, by simpa using hu⟩

/-- C2. Unowned secret: when the Sensitive `S` exists and the Secret at its name and
namespace has no owner reference with the UID of `S` (an empty list included),
`Reconcile` returns a Conflict error, issues no `Create` and no `Update`, and leaves the
store as it was. -/
theorem reconcile_unowned_conflict (f : Faults) (scheme : Scheme) (st : Store)
    (req : NamespacedName) (S : Sensitive) (sec : Secret)
    (hget : clientGetSensitive f st req = .ok S)
    (hsec : clientGetSecret f st ⟨S.name, S.ns⟩ = .ok sec)
    (hun : ∀ r ∈ sec.ownerReferences, r.uid ≠ S.uid) :
    (Reconcile f scheme st req).err = some (notOwnedConflict sec S) ∧
    (notOwnedConflict sec S).isConflict = true ∧
    creates (Reconcile f scheme st req).calls = [] ∧
    updates (Reconcile f scheme st req).calls = [] ∧
    (Reconcile f scheme st req).store = st ∧
    clientGetSecret f (Reconcile f scheme st req).store ⟨S.name, S.ns⟩ = .ok sec := by
  have ho := owned_eq_false hun
  simp [Reconcile, hget, hsec, ho, notOwnedConflict, newConflict, Err.isConflict,
    creates, updates]

/-- C2 at a Secret with an empty owner-reference list. -/
theorem reconcile_unowned_conflict_witness :
    clientGetSensitive Faults.none (exStore [exSecret [] [("password", bytesOf "x")]]) exReq
      = .ok exSensitive ∧
    (Reconcile Faults.none exScheme (exStore [exSecret [] [("password", bytesOf "x")]])
      exReq).err
      = some (notOwnedConflict (exSecret [] [("password", bytesOf "x")]) exSensitive) ∧
    (Reconcile Faults.none exScheme (exStore [exSecret [] [("password", bytesOf "x")]])
      exReq).store = exStore [exSecret [] [("password", bytesOf "x")]] :=
  have h := reconcile_unowned_conflict Faults.none exScheme
    (exStore [exSecret [] [("password", bytesOf "x")]]) exReq exSensitive
    (exSecret [] [("password", bytesOf "x")]) rfl rfl (by decide)
  ⟨rfl, h.1, h.2.2.2.2.1⟩

/-- C7. Missing key: when the Sensitive `S` exists and the Secret at its name is owned
by `S` (some owner reference has the UID of `S`) but its data has no entry for the key of
`S`, `Reconcile` returns a Conflict error, issues no `Create` and no `Update`, and
leaves the store (the Secret and its data included) as it was: the key is not re-added. -/
theorem reconcile_missing_key_conflict (f : Faults) (scheme : Scheme) (st : Store)
    (req : NamespacedName) (S : Sensitive) (sec : Secret)
    (hget : clientGetSensitive f st req = .ok S)
    (hsec : clientGetSecret f st ⟨S.name, S.ns⟩ = .ok sec)
    (hown : ∃ r ∈ sec.ownerReferences, r.uid = S.uid)
    (hkey : sec.data.get S.key = none) :
    (Reconcile f scheme st req).err = some (missingKeyConflict sec S) ∧
    (missingKeyConflict sec S).isConflict = true ∧
    creates (Reconcile f scheme st req).calls = [] ∧
    updates (Reconcile f scheme st req).calls = [] ∧
    (Reconcile f scheme st req).store = st ∧
    clientGetSecret f (Reconcile f scheme st req).store ⟨S.name, S.ns⟩ = .ok sec := by
  have ho := owned_eq_true hown
  simp [Reconcile, hget, hsec, ho, hkey, missingKeyConflict, newConflict, Err.isConflict,
    creates, updates]

/-- C7 at an owned Secret that holds another key only. -/
theorem reconcile_missing_key_conflict_witness :
    clientGetSecret Faults.none (exStore [exSecret [exOwnerRef] [("token", bytesOf "x")]])
      ⟨"sensitive-test", "default"⟩ = .ok (exSecret [exOwnerRef] [("token", bytesOf "x")]) ∧
    (Reconcile Faults.none exScheme (exStore [exSecret [exOwnerRef] [("token", bytesOf "x")]])
      exReq).err
      = some (missingKeyConflict (exSecret [exOwnerRef] [("token", bytesOf "x")])
          exSensitive) ∧
    (Reconcile Faults.none exScheme (exStore [exSecret [exOwnerRef] [("token", bytesOf "x")]])
      exReq).store = exStore [exSecret [exOwnerRef] [("token", bytesOf "x")]] :=
  have h := reconcile_missing_key_conflict Faults.none exScheme
    (exStore [exSecret [exOwnerRef] [("token", bytesOf "x")]]) exReq exSensitive
    (exSecret [exOwnerRef] [("token", bytesOf "x")]) rfl rfl (by decide) (by decide)
  ⟨rfl, h.1, h.2.2.2.2.1⟩

theorem stringEq_iff (b : Bytes) (s : String) : stringEq b s = true ↔ b = bytesOf s := by
  simp [stringEq]

/-- C4. No redundant write: when the Sensitive `S` exists and the Secret at its name has
an owner reference with the UID of `S` and holds, under the key of `S`, exactly the
bytes of the value of `S`, `Reconcile` returns the empty result with no error and issues
neither a `Create` nor an `Update`; the store is unchanged. Nothing is assumed on the
other keys or the other owner references. -/
theorem reconcile_no_redundant_write (f : Faults) (scheme : Scheme) (st : Store)
    (req : NamespacedName) (S : Sensitive) (sec : Secret)
    (hget : clientGetSensitive f st req = .ok S)
    (hsec : clientGetSecret f st ⟨S.name, S.ns⟩ = .ok sec)
    (hown : ∃ r ∈ sec.ownerReferences, r.uid = S.uid)
    (hval : sec.data.get S.key = some (bytesOf S.value)) :
    (Reconcile f scheme st req).result = Result.empty ∧
    (Reconcile f scheme st req).err = none ∧
    creates (Reconcile f scheme st req).calls = [] ∧
    updates (Reconcile f scheme st req).calls = [] ∧
    (Reconcile f scheme st req).store = st := by
  have ho := owned_eq_true hown
  have he : stringEq (bytesOf S.value) S.value = true := (stringEq_iff _ _).2 rfl
  simp [Reconcile, hget, hsec, ho, hval, he, creates, updates]

/-- C4 at a Secret with a second key and a second, foreign owner reference. -/
theorem reconcile_no_redundant_write_witness :
    (exSecret [{ exOwnerRef with uid := "other", controller := none }, exOwnerRef]
        [("token", bytesOf "x"), ("password", bytesOf "test-password")]).data.get
      exSensitive.key = some (bytesOf exSensitive.value) ∧
    (Reconcile Faults.none exScheme
      (exStore [exSecret [{ exOwnerRef with uid := "other", controller := none }, exOwnerRef]
        [("token", bytesOf "x"), ("password", bytesOf "test-password")]]) exReq).err = none ∧
    updates (Reconcile Faults.none exScheme
      (exStore [exSecret [{ exOwnerRef with uid := "other", controller := none }, exOwnerRef]
        [("token", bytesOf "x"), ("password", bytesOf "test-password")]]) exReq).calls = [] :=
  have h := reconcile_no_redundant_write Faults.none exScheme
    (exStore [exSecret [{ exOwnerRef with uid := "other", controller := none }, exOwnerRef]
      [("token", bytesOf "x"), ("password", bytesOf "test-password")]]) exReq exSensitive
    (exSecret [{ exOwnerRef with uid := "other", controller := none }, exOwnerRef]
      [("token", bytesOf "x"), ("password", bytesOf "test-password")]) rfl rfl
    (by decide) (by decide)
  ⟨by decide, h.2.1, h.2.2.2.1⟩

theorem isAt_of_find? {l : List Secret} {key : NamespacedName} {sec : Secret}
    (h : l.find? (fun s => s.isAt key) = some sec) :
    sec.name = key.name ∧ sec.ns = key.ns := by
  have := List.find?_some h
  simpa [Secret.isAt] using this

theorem clientUpdate_ok {f : Faults} {st : Store} {key : NamespacedName}
    {sec : Secret} (upd : Secret) (hf : f.update = none)
    (hfind : st.secrets.find? (fun s => s.isAt key) = some sec)
    (hn : upd.name = sec.name) (hs : upd.ns = sec.ns) :
    clientUpdate f st upd =
      .ok { st with secrets := st.secrets.map (fun t => if t.isAt key then upd else t) } := by
  obtain ⟨h1, h2⟩ := isAt_of_find? hfind
  have hk : (⟨upd.name, upd.ns⟩ : NamespacedName) = key := by
    rw [hn, hs, h1, h2]
  unfold clientUpdate
  rw [hf, hk]
  simp [any_of_find? _ _ _ hfind]

theorem clientGetSecret_after_update {f : Faults} {st : Store} {key : NamespacedName}
    {sec : Secret} (upd : Secret) (hf : f.getSecret = none)
    (hfind : st.secrets.find? (fun s => s.isAt key) = some sec)
    (hn : upd.name = sec.name) (hs : upd.ns = sec.ns) :
    clientGetSecret f
      { st with secrets := st.secrets.map (fun t => if t.isAt key then upd else t) } key
      = .ok upd := by
  obtain ⟨h1, h2⟩ := isAt_of_find? hfind
  have hu : upd.isAt key = true := by
    simp [Secret.isAt, hn, hs, h1, h2]
  unfold clientGetSecret
  rw [hf]
  simp only
  rw [find?_map_replace (fun s => s.isAt key) st.secrets sec upd hfind hu]

/-- What `Reconcile` yields on the update path. -/
theorem reconcile_update_eq (f : Faults) (scheme : Scheme) (st : Store)
    (req : NamespacedName) (S : Sensitive) (sec : Secret) (old : Bytes)
    (hget : clientGetSensitive f st req = .ok S)
    (hsec : clientGetSecret f st ⟨S.name, S.ns⟩ = .ok sec)
    (hown : ∃ r ∈ sec.ownerReferences, r.uid = S.uid)
    (hold : sec.data.get S.key = some old)
    (hne : old ≠ bytesOf S.value)
    (hupd : f.update = none) :
    Reconcile f scheme st req =
      { result := Result.empty, err := none,
        store := { st with secrets := st.secrets.map (fun t =>
          if t.isAt ⟨S.name, S.ns⟩
          then { sec with data := sec.data.set S.key (bytesOf S.value) } else t) },
        calls := [.getSensitive req, .getSecret ⟨S.name, S.ns⟩,
          .update { sec with data := sec.data.set S.key (bytesOf S.value) }] } := by
  have ho := owned_eq_true hown
  have he : stringEq old S.value = false := by
    simpa [stringEq] using hne
  have hu := clientUpdate_ok { sec with data := sec.data.set S.key (bytesOf S.value) }
    hupd (clientGetSecret_ok hsec).2 rfl rfl
  simp [Reconcile, hget, hsec, ho, hold, he, hu]

/-- C3. Update path: when the Sensitive `S` exists and the Secret at its name is owned
by `S` and holds, under the key of `S`, bytes that differ from the bytes of the value of
`S`, and the `Update` call does not fail, `Reconcile` returns the empty result with no
error and issues exactly one `Update` and no `Create`. In the updated Secret the key of
`S` maps to the bytes of the value of `S`, every other key reads as before, the key list
is the same, and kind, name, namespace and owner references are unchanged; it is what
the store then returns at that name. -/
theorem reconcile_update_path (f : Faults) (scheme : Scheme) (st : Store)
    (req : NamespacedName) (S : Sensitive) (sec : Secret) (old : Bytes)
    (hget : clientGetSensitive f st req = .ok S)
    (hsec : clientGetSecret f st ⟨S.name, S.ns⟩ = .ok sec)
    (hown : ∃ r ∈ sec.ownerReferences, r.uid = S.uid)
    (hold : sec.data.get S.key = some old)
    (hne : old ≠ bytesOf S.value)
    (hupd : f.update = none) :
    (Reconcile f scheme st req).result = Result.empty ∧
    (Reconcile f scheme st req).err = none ∧
    creates (Reconcile f scheme st req).calls = [] ∧
    ∃ upd : Secret,
      updates (Reconcile f scheme st req).calls = [upd] ∧
      upd.data.get S.key = some (bytesOf S.value) ∧
      (∀ k, k ≠ S.key → upd.data.get k = sec.data.get k) ∧
      upd.data.keys = sec.data.keys ∧
      upd.kind = sec.kind ∧ upd.name = sec.name ∧ upd.ns = sec.ns ∧
      upd.ownerReferences = sec.ownerReferences ∧
      clientGetSecret f (Reconcile f scheme st req).store ⟨S.name, S.ns⟩ = .ok upd ∧
      (Reconcile f scheme st req).store.sensitives = st.sensitives := by
  rw [reconcile_update_eq f scheme st req S sec old hget hsec hown hold hne hupd]
  refine ⟨rfl, rfl, rfl, { sec with data := sec.data.set S.key (bytesOf S.value) },
    rfl, ?_, ?_, ?_, rfl, rfl, rfl, rfl, ?_, rfl⟩
  · exact DataMap.get_set_self _ _ _
  · intro k hk
    exact DataMap.get_set_ne _ _ _ _ hk
  · exact DataMap.keys_set_of_get _ _ _ _ hold
  · exact clientGetSecret_after_update _ (clientGetSecret_ok hsec).1
      (clientGetSecret_ok hsec).2 rfl rfl

/-- C3 at a Secret holding an old password and a second key. -/
theorem reconcile_update_path_witness :
    (exSecret [exOwnerRef] [("token", bytesOf "x"), ("password", bytesOf "old")]).data.get
      exSensitive.key = some (bytesOf "old") ∧
    bytesOf "old" ≠ bytesOf exSensitive.value ∧
    updates (Reconcile Faults.none exScheme
      (exStore [exSecret [exOwnerRef] [("token", bytesOf "x"), ("password", bytesOf "old")]])
      exReq).calls
      = [exSecret [exOwnerRef]
          [("token", bytesOf "x"), ("password", bytesOf "test-password")]] ∧
    (Reconcile Faults.none exScheme
      (exStore [exSecret [exOwnerRef] [("token", bytesOf "x"), ("password", bytesOf "old")]])
      exReq).err = none :=
  have h := reconcile_update_path Faults.none exScheme
    (exStore [exSecret [exOwnerRef] [("token", bytesOf "x"), ("password", bytesOf "old")]])
    exReq exSensitive
    (exSecret [exOwnerRef] [("token", bytesOf "x"), ("password", bytesOf "old")])
    (bytesOf "old") rfl rfl (by decide) (by decide) (by decide) rfl
  ⟨by decide, by decide, by decide, h.2.1⟩

/-- On the fresh Secret of the create path the stamping helper succeeds as soon as the
scheme knows the Sensitive type, and yields `createdSecret`. -/
theorem setControllerReference_fresh (S : Sensitive) (scheme : Scheme)
    (gvk : GroupVersionKind) (hs : scheme.sensitive = some gvk) :
    SetControllerReference S
      { kind := "", name := S.name, ns := S.ns, ownerReferences := [],
        data := [(S.key, bytesOf S.value)] } scheme
    = .ok (createdSecret gvk S) := by
  unfold SetControllerReference
  have h1 : ¬ (S.ns ≠ "" ∧ S.ns = "") := fun h => h.1 h.2
  have h2 : ¬ (S.ns ≠ "" ∧ S.ns ≠ S.ns) := fun h => h.2 rfl
  simp only [h1, h2, if_false, hs, getControllerOf, List.find?_nil, upsertOwnerRef,
    List.findIdx?_nil, List.nil_append, createdSecret, controllerRefOf]

theorem clientCreate_ok (f : Faults) (st : Store) (sec : Secret) (hf : f.create = none)
    (hfind : st.secrets.find? (fun s => s.isAt ⟨sec.name, sec.ns⟩) = none) :
    clientCreate f st sec = .ok { st with secrets := st.secrets ++ [sec] } := by
  unfold clientCreate
  rw [hf]
  simp [any_of_find?_none _ _ hfind]

theorem clientGetSecret_after_create (f : Faults) (st : Store) (sec : Secret)
    (hf : f.getSecret = none)
    (hfind : st.secrets.find? (fun s => s.isAt ⟨sec.name, sec.ns⟩) = none) :
    clientGetSecret f { st with secrets := st.secrets ++ [sec] } ⟨sec.name, sec.ns⟩
      = .ok sec := by
  unfold clientGetSecret
  rw [hf]
  simp only
  rw [find?_append_single _ _ _ hfind (by simp [Secret.isAt])]

/-- What `Reconcile` yields on the create path. -/
theorem reconcile_create_eq (f : Faults) (scheme : Scheme) (st : Store)
    (req : NamespacedName) (S : Sensitive) (e : Err) (gvk : GroupVersionKind)
    (hget : clientGetSensitive f st req = .ok S)
    (hsec : clientGetSecret f st ⟨S.name, S.ns⟩ = .error e)
    (hnf : e.isNotFound = true)
    (hstamp : scheme.sensitive = some gvk)
    (hcreate : f.create = none) :
    Reconcile f scheme st req =
      { result := Result.empty, err := none,
        store := { st with secrets := st.secrets ++ [createdSecret gvk S] },
        calls := [.getSensitive req, .getSecret ⟨S.name, S.ns⟩,
          .create (createdSecret gvk S)] } := by
  have hst := setControllerReference_fresh S scheme gvk hstamp
  have hc := clientCreate_ok f st (createdSecret gvk S) hcreate
    (clientGetSecret_notFound hsec hnf).2
  simp [Reconcile, hget, hsec, hnf, hst, hc]

/-- C1. Create path: when the Sensitive `S` exists, no Secret exists at its name and
namespace (the fetch reports NotFound), owner stamping succeeds (the scheme knows the
Sensitive type, registered under kind `Sensitive`) and the `Create` call does not fail,
`Reconcile` returns the empty result with no error and issues exactly one `Create` and
no `Update`. The created Secret has the name and namespace of `S`, its data is the one
entry (key of `S`, bytes of the value of `S`), and its owner references are one
reference with kind `Sensitive`, the name and UID of `S`, and the controller flag set; it
is what the store then returns at that name. -/
theorem reconcile_create_path (f : Faults) (scheme : Scheme) (st : Store)
    (req : NamespacedName) (S : Sensitive) (e : Err) (gvk : GroupVersionKind)
    (hget : clientGetSensitive f st req = .ok S)
    (hsec : clientGetSecret f st ⟨S.name, S.ns⟩ = .error e)
    (hnf : e.isNotFound = true)
    (hstamp : scheme.sensitive = some gvk)
    (hkind : gvk.kind = "Sensitive")
    (hcreate : f.create = none) :
    (Reconcile f scheme st req).result = Result.empty ∧
    (Reconcile f scheme st req).err = none ∧
    updates (Reconcile f scheme st req).calls = [] ∧
    ∃ sec : Secret,
      creates (Reconcile f scheme st req).calls = [sec] ∧
      sec.name = S.name ∧ sec.ns = S.ns ∧
      sec.data = [(S.key, bytesOf S.value)] ∧
      sec.ownerReferences = [controllerRefOf gvk S] ∧
      (controllerRefOf gvk S).kind = "Sensitive" ∧
      (controllerRefOf gvk S).name = S.name ∧
      (controllerRefOf gvk S).uid = S.uid ∧
      (controllerRefOf gvk S).controller = some true ∧
      clientGetSecret f (Reconcile f scheme st req).store ⟨S.name, S.ns⟩ = .ok sec ∧
      (Reconcile f scheme st req).store.sensitives = st.sensitives := by
  rw [reconcile_create_eq f scheme st req S e gvk hget hsec hnf hstamp hcreate]
  refine ⟨rfl, rfl, rfl, createdSecret gvk S, rfl, rfl, rfl, rfl, rfl, hkind, rfl, rfl,
    rfl, ?_, rfl⟩
  exact clientGetSecret_after_create f st (createdSecret gvk S)
    (clientGetSecret_notFound hsec hnf).1 (clientGetSecret_notFound hsec hnf).2

/-- C1 at the scenario of the controller test: `sensitive-test` in `default` with key
`password` and value `test-password`, and no Secret yet. -/
theorem reconcile_create_path_witness :
    clientGetSensitive Faults.none (exStore []) exReq = .ok exSensitive ∧
    clientGetSecret Faults.none (exStore []) ⟨"sensitive-test", "default"⟩
      = .error (.notFound "sensitive-test") ∧
    (Reconcile Faults.none exScheme (exStore []) exReq).err = none ∧
    creates (Reconcile Faults.none exScheme (exStore []) exReq).calls
      = [exSecret [exOwnerRef] [("password", bytesOf "test-password")]] ∧
    (Reconcile Faults.none exScheme (exStore []) exReq).store
      = exStore [exSecret [exOwnerRef] [("password", bytesOf "test-password")]] :=
  have h := reconcile_create_path Faults.none exScheme (exStore []) exReq exSensitive
    (.notFound "sensitive-test") ⟨"test.origoss.com", "v1alpha1", "Sensitive"⟩
    rfl rfl rfl rfl rfl rfl
  ⟨rfl, rfl, h.2.1, by decide, by decide⟩

/-- What `Reconcile` yields when the Secret already holds the value. -/
theorem reconcile_nochange_eq (f : Faults) (scheme : Scheme) (st : Store)
    (req : NamespacedName) (S : Sensitive) (sec : Secret)
    (hget : clientGetSensitive f st req = .ok S)
    (hsec : clientGetSecret f st ⟨S.name, S.ns⟩ = .ok sec)
    (hown : ∃ r ∈ sec.ownerReferences, r.uid = S.uid)
    (hval : sec.data.get S.key = some (bytesOf S.value)) :
    Reconcile f scheme st req =
      { result := Result.empty, err := none, store := st,
        calls := [.getSensitive req, .getSecret ⟨S.name, S.ns⟩] } := by
  have ho := owned_eq_true hown
  have he : stringEq (bytesOf S.value) S.value = true := (stringEq_iff _ _).2 rfl
  simp [Reconcile, hget, hsec, ho, hval, he]

/-- What `Reconcile` yields when the Sensitive is not found. -/
theorem reconcile_deleted_eq (f : Faults) (scheme : Scheme) (st : Store)
    (req : NamespacedName) (e : Err)
    (hget : clientGetSensitive f st req = .error e) (hnf : e.isNotFound = true) :
    Reconcile f scheme st req =
      { result := Result.empty, err := none, store := st,
        calls := [.getSensitive req,
          .logInfo ("'" ++ req.toString ++ "' Sensitive deleted")] } := by
  simp [Reconcile, hget, hnf]

/-- The answer of `Get` for a Sensitive depends on the fault and the stored Sensitives only. -/
theorem clientGetSensitive_congr (f g : Faults) (st st1 : Store) (key : NamespacedName)
    (hg : g.getSensitive = none) (r : Except Err Sensitive)
    (h : clientGetSensitive f st key = r)
    (hr : ∀ m, r ≠ .error (.other m))
    (hs : st1.sensitives = st.sensitives) :
    clientGetSensitive g st1 key = r := by
  unfold clientGetSensitive at h ⊢
  rw [hg, hs]
  cases hf : f.getSensitive with
  | some msg =>
    rw [hf] at h
    exact absurd h.symm (hr msg)
  | none =>
    rw [hf] at h
    exact h

/-- The answer of `Get` for a Secret depends on the fault and the stored Secrets only. -/
theorem clientGetSecret_congr (f g : Faults) (st : Store) (key : NamespacedName)
    (hg : g.getSecret = none) (sec : Secret)
    (h : clientGetSecret f st key = .ok sec) :
    clientGetSecret g st key = .ok sec := by
  obtain ⟨_, h2⟩ := clientGetSecret_ok h
  unfold clientGetSecret
  rw [hg]
  simp only [h2]

theorem createdSecret_owned (gvk : GroupVersionKind) (S : Sensitive) :
    ∃ r ∈ (createdSecret gvk S).ownerReferences, r.uid = S.uid :=
  ⟨controllerRefOf gvk S, by simp [createdSecret], rfl⟩

theorem createdSecret_get (gvk : GroupVersionKind) (S : Sensitive) :
    (createdSecret gvk S).data.get S.key = some (bytesOf S.value) := by
  simp [createdSecret, DataMap.get, List.lookup_cons]

/-- After a run that returned no error, a second run is a no-op. -/
theorem reconcile_second_run (f1 f2 : Faults) (sch1 sch2 : Scheme) (st : Store)
    (req : NamespacedName)
    (h1 : (Reconcile f1 sch1 st req).err = none)
    (hg : f2.getSensitive = none) (hs : f2.getSecret = none) :
    ∃ cs, Reconcile f2 sch2 (Reconcile f1 sch1 st req).store req =
        { result := Result.empty, err := none,
          store := (Reconcile f1 sch1 st req).store, calls := cs } ∧
      creates cs = [] ∧ updates cs = [] := by
  cases hget : clientGetSensitive f1 st req with
  | error e =>
    by_cases hnf : e.isNotFound = true
    · rw [reconcile_deleted_eq f1 sch1 st req e hget hnf]
      have h2 : clientGetSensitive f2 st req = .error e :=
        clientGetSensitive_congr f1 f2 st st req hg _ hget
          (by intro m hm; cases hm; simp [Err.isNotFound] at hnf) rfl
      exact ⟨_, reconcile_deleted_eq f2 sch2 st req e h2 hnf, rfl, rfl⟩
    · simp [Reconcile, hget, hnf] at h1
  | ok S =>
    cases hsec : clientGetSecret f1 st ⟨S.name, S.ns⟩ with
    | error e =>
      by_cases hnf : e.isNotFound = true
      · cases hsch : sch1.sensitive with
        | none =>
          simp [Reconcile, hget, hsec, hnf, SetControllerReference, hsch] at h1
        | some gvk =>
          cases hcr : f1.create with
          | some msg =>
            have hst := setControllerReference_fresh S sch1 gvk hsch
            simp [Reconcile, hget, hsec, hnf, hst, clientCreate, hcr] at h1
          | none =>
            rw [reconcile_create_eq f1 sch1 st req S e gvk hget hsec hnf hsch hcr]
            have hS : clientGetSensitive f2
                { st with secrets := st.secrets ++ [createdSecret gvk S] } req = .ok S :=
              clientGetSensitive_congr f1 f2 st _ req hg _ hget
                (by intro m hm; cases hm) rfl
            have hC := clientGetSecret_after_create f2 st (createdSecret gvk S) hs
              (clientGetSecret_notFound hsec hnf).2
            exact ⟨_, reconcile_nochange_eq f2 sch2 _ req S (createdSecret gvk S) hS hC
              (createdSecret_owned gvk S) (createdSecret_get gvk S), rfl, rfl⟩
      · simp [Reconcile, hget, hsec, hnf] at h1
    | ok sec =>
      by_cases hown : ∃ r ∈ sec.ownerReferences, r.uid = S.uid
      · cases hold : sec.data.get S.key with
        | none =>
          simp [Reconcile, hget, hsec, owned_eq_true hown, hold] at h1
        | some old =>
          by_cases heq : old = bytesOf S.value
          · subst heq
            rw [reconcile_nochange_eq f1 sch1 st req S sec hget hsec hown hold]
            have hS : clientGetSensitive f2 st req = .ok S :=
              clientGetSensitive_congr f1 f2 st st req hg _ hget
                (by intro m hm; cases hm) rfl
            have hC := clientGetSecret_congr f1 f2 st _ hs sec hsec
            exact ⟨_, reconcile_nochange_eq f2 sch2 st req S sec hS hC hown hold, rfl, rfl⟩
          · cases hup : f1.update with
            | some msg =>
              have he : stringEq old S.value = false := by
                simpa [stringEq] using heq
              simp [Reconcile, hget, hsec, owned_eq_true hown, hold, he, clientUpdate,
                hup] at h1
            | none =>
              rw [reconcile_update_eq f1 sch1 st req S sec old hget hsec hown hold heq hup]
              have hS : clientGetSensitive f2
                  { st with secrets := st.secrets.map (fun t =>
                      if t.isAt ⟨S.name, S.ns⟩
                      then { sec with data := sec.data.set S.key (bytesOf S.value) }
                      else t) } req = .ok S :=
                clientGetSensitive_congr f1 f2 st _ req hg _ hget
                  (by intro m hm; cases hm) rfl
              have hC := clientGetSecret_after_update
                { sec with data := sec.data.set S.key (bytesOf S.value) } hs
                (clientGetSecret_ok hsec).2 rfl rfl
              exact ⟨_, reconcile_nochange_eq f2 sch2 _ req S _ hS hC hown
                (DataMap.get_set_self _ _ _), rfl, rfl⟩
      · have hun : ∀ r ∈ sec.ownerReferences, r.uid ≠ S.uid := by
          intro r hr hu
          exact hown ⟨r, hr, hu⟩
        simp [Reconcile, hget, hsec, owned_eq_false hun] at h1

/-- C5. Idempotence over two runs: for every store and request, if `Reconcile` returns
without error (through the create, update, no-change or not-found path), then a second
`Reconcile` for the same request on the resulting store, whose two `Get` calls do not
fail, returns the empty result with no error, issues no `Create` and no `Update`, and
leaves the store equal to the store after the first run. -/
theorem reconcile_idempotent (f1 f2 : Faults) (sch1 sch2 : Scheme) (st : Store)
    (req : NamespacedName)
    (h1 : (Reconcile f1 sch1 st req).err = none)
    (hg : f2.getSensitive = none) (hs : f2.getSecret = none) :
    (Reconcile f2 sch2 (Reconcile f1 sch1 st req).store req).result = Result.empty ∧
    (Reconcile f2 sch2 (Reconcile f1 sch1 st req).store req).err = none ∧
    creates (Reconcile f2 sch2 (Reconcile f1 sch1 st req).store req).calls = [] ∧
    updates (Reconcile f2 sch2 (Reconcile f1 sch1 st req).store req).calls = [] ∧
    (Reconcile f2 sch2 (Reconcile f1 sch1 st req).store req).store
      = (Reconcile f1 sch1 st req).store := by
  obtain ⟨cs, h, hc, hu⟩ := reconcile_second_run f1 f2 sch1 sch2 st req h1 hg hs
  rw [h]
  exact ⟨rfl, rfl, hc, hu, rfl⟩

/-- C5 after a first run that created the Secret. -/
theorem reconcile_idempotent_witness :
    (Reconcile Faults.none exScheme (exStore []) exReq).err = none ∧
    creates (Reconcile Faults.none exScheme (exStore []) exReq).calls
      = [exSecret [exOwnerRef] [("password", bytesOf "test-password")]] ∧
    (Reconcile Faults.none exScheme
      (Reconcile Faults.none exScheme (exStore []) exReq).store exReq).err = none ∧
    creates (Reconcile Faults.none exScheme
      (Reconcile Faults.none exScheme (exStore []) exReq).store exReq).calls = [] ∧
    (Reconcile Faults.none exScheme
      (Reconcile Faults.none exScheme (exStore []) exReq).store exReq).store
      = exStore [exSecret [exOwnerRef] [("password", bytesOf "test-password")]] :=
  have h := reconcile_idempotent Faults.none Faults.none exScheme exScheme (exStore [])
    exReq (by decide) rfl rfl
  ⟨by decide, by decide, h.2.1, h.2.2.1, by decide⟩

theorem conflict_messages_ne (a b c : String) :
    "unable to find secret value by key '" ++ a ++ "'" ≠
    "secret with name '" ++ b ++ "' already exists, but not owned by Sensitive: '"
      ++ c ++ "'" := by
  intro h
  have h2 := congrArg (fun s => s.data.head?) h
  simp [String.data_append] at h2

/-- C8, refuted as stated: a Secret whose only reference to the Sensitive has the
controller flag unset passes the ownership check; `Reconcile` returns no error and
updates its data. -/
theorem managed_without_controller_flag :
    (∀ r ∈ (exSecret [exUnflaggedRef] [("password", bytesOf "old")]).ownerReferences,
      r.controller ≠ some true) ∧
    (Reconcile Faults.none exScheme
      (exStore [exSecret [exUnflaggedRef] [("password", bytesOf "old")]]) exReq).err
      = none ∧
    updates (Reconcile Faults.none exScheme
      (exStore [exSecret [exUnflaggedRef] [("password", bytesOf "old")]]) exReq).calls
      = [exSecret [exUnflaggedRef] [("password", bytesOf "test-password")]] := by
  decide

/-- C8, amended. For every Sensitive `S` and every existing Secret at its name and
namespace, `Reconcile` passes the ownership check (does not return the not-owned
Conflict) exactly when some owner reference of the Secret has the UID of `S`; the
controller flag of that reference plays no part. -/
theorem reconcile_managed_iff_uid (f : Faults) (scheme : Scheme) (st : Store)
    (req : NamespacedName) (S : Sensitive) (sec : Secret)
    (hget : clientGetSensitive f st req = .ok S)
    (hsec : clientGetSecret f st ⟨S.name, S.ns⟩ = .ok sec) :
    (Reconcile f scheme st req).err ≠ some (notOwnedConflict sec S) ↔
      ∃ r ∈ sec.ownerReferences, r.uid = S.uid := by
  constructor
  · intro h
    by_contra hno
    have hun : ∀ r ∈ sec.ownerReferences, r.uid ≠ S.uid := by
      intro r hr hu
      exact hno ⟨r, hr, hu⟩
    apply h
    simp [Reconcile, hget, hsec, owned_eq_false hun, notOwnedConflict]
  · intro hown
    have ho := owned_eq_true hown
    cases hold : sec.data.get S.key with
    | none =>
      simp [Reconcile, hget, hsec, ho, hold, notOwnedConflict, newConflict,
        conflict_messages_ne]
    | some old =>
      by_cases he : stringEq old S.value = true
      · simp [Reconcile, hget, hsec, ho, hold, he]
      · cases hup : clientUpdate f st
            { sec with data := sec.data.set S.key (bytesOf S.value) } with
        | ok st1 => simp [Reconcile, hget, hsec, ho, hold, he, hup]
        | error e =>
          have hne : e ≠ notOwnedConflict sec S := by
            unfold clientUpdate at hup
            intro hc
            subst hc
            cases hf : f.update with
            | some msg => simp [hf, notOwnedConflict, newConflict] at hup
            | none =>
              rw [hf] at hup
              simp only at hup
              split at hup <;> simp [notOwnedConflict, newConflict] at hup
          simp [Reconcile, hget, hsec, ho, hold, he, hup, hne]

/-- C8 amended, at a Secret whose reference to the Sensitive has the flag unset. -/
theorem reconcile_managed_iff_uid_witness :
    clientGetSecret Faults.none
      (exStore [exSecret [exUnflaggedRef] [("password", bytesOf "old")]])
      ⟨"sensitive-test", "default"⟩
      = .ok (exSecret [exUnflaggedRef] [("password", bytesOf "old")]) ∧
    ((Reconcile Faults.none exScheme
      (exStore [exSecret [exUnflaggedRef] [("password", bytesOf "old")]]) exReq).err
      ≠ some (notOwnedConflict (exSecret [exUnflaggedRef] [("password", bytesOf "old")])
          exSensitive) ↔
      ∃ r ∈ (exSecret [exUnflaggedRef] [("password", bytesOf "old")]).ownerReferences,
        r.uid = exSensitive.uid) :=
  ⟨rfl, reconcile_managed_iff_uid Faults.none exScheme
    (exStore [exSecret [exUnflaggedRef] [("password", bytesOf "old")]]) exReq exSensitive
    (exSecret [exUnflaggedRef] [("password", bytesOf "old")]) rfl rfl⟩

/-- Every Secret `Reconcile` passes to `Create` is the freshly stamped one. -/
theorem mem_creates_reconcile (f : Faults) (scheme : Scheme) (st : Store)
    (req : NamespacedName) (sec : Secret)
    (h : sec ∈ creates (Reconcile f scheme st req).calls) :
    ∃ S gvk, clientGetSensitive f st req = .ok S ∧ scheme.sensitive = some gvk ∧
      sec = createdSecret gvk S := by
  cases hget : clientGetSensitive f st req with
  | error e =>
    by_cases hnf : e.isNotFound = true <;> simp [Reconcile, hget, hnf, creates] at h
  | ok S =>
    cases hsec : clientGetSecret f st ⟨S.name, S.ns⟩ with
    | error e =>
      by_cases hnf : e.isNotFound = true
      · cases hsch : scheme.sensitive with
        | none =>
          simp [Reconcile, hget, hsec, hnf, SetControllerReference, hsch, creates] at h
        | some gvk =>
          have hst := setControllerReference_fresh S scheme gvk hsch
          refine ⟨S, gvk, rfl, rfl, ?_⟩
          cases hc : clientCreate f st (createdSecret gvk S) <;>
            simpa [Reconcile, hget, hsec, hnf, hst, hc, creates] using h
      · simp [Reconcile, hget, hsec, hnf, creates] at h
    | ok old =>
      exfalso
      by_cases ho : owned old.ownerReferences S = true
      · cases hold : old.data.get S.key with
        | none => simp [Reconcile, hget, hsec, ho, hold, creates] at h
        | some v =>
          by_cases he : stringEq v S.value = true
          · simp [Reconcile, hget, hsec, ho, hold, he, creates] at h
          · cases hup : clientUpdate f st
                { old with data := old.data.set S.key (bytesOf S.value) } <;>
              simp [Reconcile, hget, hsec, ho, hold, he, hup, creates] at h
      · simp [Reconcile, hget, hsec, ho, creates] at h

/-- Every Secret `Reconcile` passes to `Update` is a fetched Secret that passed the
ownership scan, with the one data entry overwritten. -/
theorem mem_updates_reconcile (f : Faults) (scheme : Scheme) (st : Store)
    (req : NamespacedName) (sec : Secret)
    (h : sec ∈ updates (Reconcile f scheme st req).calls) :
    ∃ S old, clientGetSensitive f st req = .ok S ∧
      clientGetSecret f st ⟨S.name, S.ns⟩ = .ok old ∧
      owned old.ownerReferences S = true ∧
      sec = { old with data := old.data.set S.key (bytesOf S.value) } := by
  cases hget : clientGetSensitive f st req with
  | error e =>
    by_cases hnf : e.isNotFound = true <;> simp [Reconcile, hget, hnf, updates] at h
  | ok S =>
    cases hsec : clientGetSecret f st ⟨S.name, S.ns⟩ with
    | error e =>
      exfalso
      by_cases hnf : e.isNotFound = true
      · cases hsch : scheme.sensitive with
        | none =>
          simp [Reconcile, hget, hsec, hnf, SetControllerReference, hsch, updates] at h
        | some gvk =>
          have hst := setControllerReference_fresh S scheme gvk hsch
          cases hc : clientCreate f st (createdSecret gvk S) <;>
            simp [Reconcile, hget, hsec, hnf, hst, hc, updates] at h
      · simp [Reconcile, hget, hsec, hnf, updates] at h
    | ok old =>
      by_cases ho : owned old.ownerReferences S = true
      · refine ⟨S, old, rfl, hsec, ho, ?_⟩
        cases hold : old.data.get S.key with
        | none => simp [Reconcile, hget, hsec, ho, hold, updates] at h
        | some v =>
          by_cases he : stringEq v S.value = true
          · simp [Reconcile, hget, hsec, ho, hold, he, updates] at h
          · cases hup : clientUpdate f st
                { old with data := old.data.set S.key (bytesOf S.value) } <;>
              simpa [Reconcile, hget, hsec, ho, hold, he, hup, updates] using h
      · simp [Reconcile, hget, hsec, ho, updates] at h

theorem uidCount_pos_of_owned {refs : List OwnerReference} {S : Sensitive}
    (h : owned refs S = true) : 1 ≤ uidCount refs S.uid := by
  unfold uidCount
  unfold owned at h
  rw [List.any_eq_true] at h
  obtain ⟨r, hr, hu⟩ := h
  exact List.countP_pos_iff.2 ⟨r, hr, hu⟩

/-- C9, refuted as stated: a Secret that carries two owner references with the UID of
the Sensitive and an outdated value is updated, and the Secret written by that `Update`
carries two such references, not exactly one. -/
theorem update_with_two_matching_references :
    updates (Reconcile Faults.none exScheme
      (exStore [exSecret [exOwnerRef, exUnflaggedRef] [("password", bytesOf "old")]])
      exReq).calls
      = [exSecret [exOwnerRef, exUnflaggedRef] [("password", bytesOf "test-password")]] ∧
    uidCount (exSecret [exOwnerRef, exUnflaggedRef]
      [("password", bytesOf "test-password")]).ownerReferences exSensitive.uid = 2 := by
  decide

/-- C9, amended. Every Secret that `Reconcile` passes to `Create` carries exactly one
owner reference, and its UID is the UID of the Sensitive being reconciled; every Secret
that `Reconcile` passes to `Update` carries at least one owner reference with that UID,
and so did the stored Secret it was read from: `Reconcile` never issues an `Update` for a
Secret without such a reference. -/
theorem reconcile_writes_owned (f : Faults) (scheme : Scheme) (st : Store)
    (req : NamespacedName) :
    (∀ sec ∈ creates (Reconcile f scheme st req).calls,
      ∃ S, clientGetSensitive f st req = .ok S ∧
        sec.ownerReferences.length = 1 ∧ uidCount sec.ownerReferences S.uid = 1) ∧
    (∀ sec ∈ updates (Reconcile f scheme st req).calls,
      ∃ S old, clientGetSensitive f st req = .ok S ∧
        clientGetSecret f st ⟨S.name, S.ns⟩ = .ok old ∧
        1 ≤ uidCount old.ownerReferences S.uid ∧
        sec.ownerReferences = old.ownerReferences ∧
        1 ≤ uidCount sec.ownerReferences S.uid) := by
  constructor
  · intro sec h
    obtain ⟨S, gvk, hS, _, rfl⟩ := mem_creates_reconcile f scheme st req sec h
    exact ⟨S, hS, rfl, by simp [uidCount, createdSecret, controllerRefOf]⟩
  · intro sec h
    obtain ⟨S, old, hS, hold, ho, rfl⟩ := mem_updates_reconcile f scheme st req sec h
    exact ⟨S, old, hS, hold, uidCount_pos_of_owned ho, rfl, uidCount_pos_of_owned ho⟩

/-- C9 amended, at the create of the controller test and at the update of a Secret with
two matching references. -/
theorem reconcile_writes_owned_witness :
    (∀ sec ∈ creates (Reconcile Faults.none exScheme (exStore []) exReq).calls,
      ∃ S, clientGetSensitive Faults.none (exStore []) exReq = .ok S ∧
        sec.ownerReferences.length = 1 ∧ uidCount sec.ownerReferences S.uid = 1) ∧
    creates (Reconcile Faults.none exScheme (exStore []) exReq).calls
      = [exSecret [exOwnerRef] [("password", bytesOf "test-password")]] :=
  ⟨(reconcile_writes_owned Faults.none exScheme (exStore []) exReq).1, by decide⟩

/-- What `Reconcile` yields when the `Update` call fails. -/
theorem reconcile_update_fails_eq (f : Faults) (scheme : Scheme) (st : Store)
    (req : NamespacedName) (S : Sensitive) (sec : Secret) (old : Bytes) (msg : String)
    (hget : clientGetSensitive f st req = .ok S)
    (hsec : clientGetSecret f st ⟨S.name, S.ns⟩ = .ok sec)
    (hown : ∃ r ∈ sec.ownerReferences, r.uid = S.uid)
    (hold : sec.data.get S.key = some old)
    (hne : old ≠ bytesOf S.value)
    (hupd : f.update = some msg) :
    Reconcile f scheme st req =
      { result := Result.empty, err := some (.other msg), store := st,
        calls := [.getSensitive req, .getSecret ⟨S.name, S.ns⟩,
          .update { sec with data := sec.data.set S.key (bytesOf S.value) },
          .logError "unable to update secret"] } := by
  have ho := owned_eq_true hown
  have he : stringEq old S.value = false := by
    simpa [stringEq] using hne
  simp [Reconcile, hget, hsec, ho, hold, he, clientUpdate, hupd]

/-- What `Reconcile` yields when the owned Secret lacks the key. -/
theorem reconcile_missing_key_eq (f : Faults) (scheme : Scheme) (st : Store)
    (req : NamespacedName) (S : Sensitive) (sec : Secret)
    (hget : clientGetSensitive f st req = .ok S)
    (hsec : clientGetSecret f st ⟨S.name, S.ns⟩ = .ok sec)
    (hown : ∃ r ∈ sec.ownerReferences, r.uid = S.uid)
    (hkey : sec.data.get S.key = none) :
    Reconcile f scheme st req =
      { result := Result.empty, err := some (missingKeyConflict sec S), store := st,
        calls := [.getSensitive req, .getSecret ⟨S.name, S.ns⟩] } := by
  have ho := owned_eq_true hown
  simp [Reconcile, hget, hsec, ho, hkey, missingKeyConflict]

/-- C10, refuted as stated: after the key of the Sensitive was changed from `password`
to `token`, the owned Secret still holds the value under `password` only, and
`Reconcile` does not return success: it reports the missing-key Conflict. -/
theorem key_change_reports_conflict :
    (exSecret [exOwnerRef] [("password", bytesOf "test-password")]).data.get "password"
      = some (bytesOf "test-password") ∧
    (Reconcile Faults.none exScheme
      ⟨[exRekeyed], [exSecret [exOwnerRef] [("password", bytesOf "test-password")]]⟩
      exReq).err
      = some (missingKeyConflict
          (exSecret [exOwnerRef] [("password", bytesOf "test-password")]) exRekeyed) ∧
    (Reconcile Faults.none exScheme
      ⟨[exRekeyed], [exSecret [exOwnerRef] [("password", bytesOf "test-password")]]⟩
      exReq).err ≠ none := by
  decide

/-- C10, amended. Key change: when the key of the Sensitive `S` is now `K2` and the owned
Secret holds a value under another key `K1`, `Reconcile` issues no `Create`, any `Update`
it issues keeps the `K1` entry and every entry other than `K2` as they were, and the
Secret in the store afterwards still holds the old value under `K1`. If the Secret has
no `K2` entry, `Reconcile` returns the missing-key Conflict and writes nothing; if it has
one and the `Update` call does not fail, `Reconcile` returns no error. -/
theorem reconcile_key_change (f : Faults) (scheme : Scheme) (st : Store)
    (req : NamespacedName) (S : Sensitive) (sec : Secret) (K1 : String) (v : Bytes)
    (hget : clientGetSensitive f st req = .ok S)
    (hsec : clientGetSecret f st ⟨S.name, S.ns⟩ = .ok sec)
    (hown : ∃ r ∈ sec.ownerReferences, r.uid = S.uid)
    (hk : K1 ≠ S.key)
    (hv : sec.data.get K1 = some v) :
    creates (Reconcile f scheme st req).calls = [] ∧
    (∀ upd ∈ updates (Reconcile f scheme st req).calls,
      upd.data.get K1 = some v ∧ ∀ k, k ≠ S.key → upd.data.get k = sec.data.get k) ∧
    (∃ sec1, clientGetSecret f (Reconcile f scheme st req).store ⟨S.name, S.ns⟩ = .ok sec1 ∧
      sec1.data.get K1 = some v) ∧
    (sec.data.get S.key = none →
      (Reconcile f scheme st req).err = some (missingKeyConflict sec S) ∧
      (missingKeyConflict sec S).isConflict = true ∧
      updates (Reconcile f scheme st req).calls = [] ∧
      (Reconcile f scheme st req).store = st) ∧
    (∀ w, sec.data.get S.key = some w → f.update = none →
      (Reconcile f scheme st req).err = none) := by
  cases hold : sec.data.get S.key with
  | none =>
    rw [reconcile_missing_key_eq f scheme st req S sec hget hsec hown hold]
    refine ⟨rfl, ?_, ⟨sec, hsec, hv⟩, ?_, ?_⟩
    · intro upd hu
      simp [updates] at hu
    · intro _
      exact ⟨rfl, rfl, rfl, rfl⟩
    · intro w hw
      cases hw
  | some old =>
    by_cases heq : old = bytesOf S.value
    · subst heq
      rw [reconcile_nochange_eq f scheme st req S sec hget hsec hown hold]
      refine ⟨rfl, ?_, ⟨sec, hsec, hv⟩, ?_, ?_⟩
      · intro upd hu
        simp [updates] at hu
      · intro h
        cases h
      · intro _ _ _
        rfl
    · have hK1 : (sec.data.set S.key (bytesOf S.value)).get K1 = some v := by
        rw [DataMap.get_set_ne _ _ _ _ hk, hv]
      cases hup : f.update with
      | none =>
        rw [reconcile_update_eq f scheme st req S sec old hget hsec hown hold heq hup]
        refine ⟨rfl, ?_, ⟨{ sec with data := sec.data.set S.key (bytesOf S.value) }, ?_,
          hK1⟩, ?_, ?_⟩
        · intro upd hu
          simp only [updates, List.mem_singleton] at hu
          subst hu
          exact ⟨hK1, fun k hk2 => DataMap.get_set_ne _ _ _ _ hk2⟩
        · exact clientGetSecret_after_update _ (clientGetSecret_ok hsec).1
            (clientGetSecret_ok hsec).2 rfl rfl
        · intro h
          cases h
        · intro _ _ _
          rfl
      | some msg =>
        rw [reconcile_update_fails_eq f scheme st req S sec old msg hget hsec hown hold
          heq hup]
        refine ⟨rfl, ?_, ⟨sec, hsec, hv⟩, ?_, ?_⟩
        · intro upd hu
          simp only [updates, List.mem_singleton] at hu
          subst hu
          exact ⟨hK1, fun k hk2 => DataMap.get_set_ne _ _ _ _ hk2⟩
        · intro h
          cases h
        · intro _ _ h
          cases h

/-- C10 amended, at the Secret that holds the value under the old key `password` only,
after the key became `token`. -/
theorem reconcile_key_change_witness :
    clientGetSensitive Faults.none
      ⟨[exRekeyed], [exSecret [exOwnerRef] [("password", bytesOf "test-password")]]⟩ exReq
      = .ok exRekeyed ∧
    (∃ sec1, clientGetSecret Faults.none
        (Reconcile Faults.none exScheme
          ⟨[exRekeyed], [exSecret [exOwnerRef] [("password", bytesOf "test-password")]]⟩
          exReq).store ⟨"sensitive-test", "default"⟩ = .ok sec1 ∧
      sec1.data.get "password" = some (bytesOf "test-password")) ∧
    creates (Reconcile Faults.none exScheme
      ⟨[exRekeyed], [exSecret [exOwnerRef] [("password", bytesOf "test-password")]]⟩
      exReq).calls = [] :=
  have h := reconcile_key_change Faults.none exScheme
    ⟨[exRekeyed], [exSecret [exOwnerRef] [("password", bytesOf "test-password")]]⟩ exReq
    exRekeyed (exSecret [exOwnerRef] [("password", bytesOf "test-password")]) "password"
    (bytesOf "test-password") rfl rfl (by decide) (by decide) (by decide)
  ⟨rfl, h.2.2.1, h.1⟩

end SensitiveController
